import Mathlib

/-!
Verification of the Anki note builder of 10ten-ja-reader
(`src/content/anki-note-builder.ts` and `src/common/anki-types.ts`).

Strings are modelled as Lean `String` / `List Char` (JavaScript `for..of`
iterates code points, which correspond to Lean `Char`s).  JavaScript records
(`Record<string, string>`) are modelled as insertion-ordered association
lists `List (String × String)`; `List.lookup` implements property access on
such a record (keys are unique by construction).
-/

namespace TenTen

/-- `isKanaChar` from anki-note-builder.ts: Hiragana U+3040–U+309F or
Katakana U+30A0–U+30FF. -/
def isKanaChar (c : Char) : Bool :=
  (0x3040 ≤ c.toNat && c.toNat ≤ 0x309f) || (0x30a0 ≤ c.toNat && c.toNat ≤ 0x30ff)

/-- `isAllKana` from anki-note-builder.ts: every character is kana and the
text is non-empty. -/
def isAllKana (text : List Char) : Bool :=
  text.all isKanaChar && !text.isEmpty

/-- `katakanaToHiragana` from anki-note-builder.ts: shift U+30A1–U+30F6 down
by 0x60, leave everything else unchanged. -/
def katakanaToHiragana (text : List Char) : List Char :=
  text.map (fun c =>
    if 0x30a1 ≤ c.toNat && c.toNat ≤ 0x30f6 then Char.ofNat (c.toNat - 0x60) else c)

/-- `FuriganaSegment` from anki-note-builder.ts. -/
structure FuriganaSegment where
  text : List Char
  reading : List Char
deriving DecidableEq

/-- The kanji/kana grouping loop of `distributeFurigana`: partition the
expression into maximal runs of characters with equal kana-ness, each run
tagged with its `isKana` flag. -/
def kanaGroups : List Char → List (List Char × Bool)
  | [] => []
  | c :: cs =>
    match kanaGroups cs with
    | [] => [([c], isKanaChar c)]
    | (g, b) :: gs =>
      if isKanaChar c = b then (c :: g, b) :: gs
      else ([c], isKanaChar c) :: (g, b) :: gs

/-- JavaScript `haystack.indexOf(needle, start)` for a non-empty needle:
the least index `i ≥ start` at which `needle` occurs, if any. -/
def indexOfFrom (hay needle : List Char) (start : Nat) : Option Nat :=
  (List.range (hay.length + 1)).find? (fun i =>
    decide (start ≤ i) && needle.isPrefixOf (hay.drop i))

/-- JavaScript `s.slice(a, b)` for `0 ≤ a ≤ b`. -/
def listSlice (l : List Char) (a b : Nat) : List Char :=
  (l.drop a).take (b - a)

/-- `segments[segments.length - 1].reading = r` from `distributeFurigana`
(the guard `lastSeg.reading || !lastSeg.reading` in the source is always
true, so the assignment is unconditional). -/
def setLastReading : List FuriganaSegment → List Char → List FuriganaSegment
  | [], _ => []
  | [s], r => [⟨s.text, r⟩]
  | s :: s2 :: rest, r => s :: setLastReading (s2 :: rest) r

/-- Helper for the trailing-reading assignment: set the reading of the first
segment (scanning from the front) whose text is not all kana. -/
def setFirstKanjiRev : List FuriganaSegment → List Char → List FuriganaSegment
  | [], _ => []
  | s :: rest, r =>
    if isAllKana s.text then s :: setFirstKanjiRev rest r
    else ⟨s.text, r⟩ :: rest

/-- `[...segments].reverse().find((s) => !isAllKana(s.text))` followed by the
mutation of that segment's reading: assign `r` to the last segment whose
text is not all kana. -/
def setLastKanjiReading (segs : List FuriganaSegment) (r : List Char) : List FuriganaSegment :=
  (setFirstKanjiRev segs.reverse r).reverse

/-- The main `for (let i = 0; i < groups.length; i++)` walk of
`distributeFurigana`, threading the segment list and the reading cursor.
`none` models the `return [{ text: expression, reading }]` fallback taken
when a kana run cannot be found in the remaining reading. -/
def distLoop (reading rn : List Char) :
    List (List Char × Bool) → Nat → List FuriganaSegment →
    Option (List FuriganaSegment × Nat)
  | [], rp, segs => some (segs, rp)
  | (g, gIsKana) :: rest, rp, segs =>
    if gIsKana then
      let kanaToFind := katakanaToHiragana g
      match indexOfFrom rn kanaToFind rp with
      | some foundIdx =>
        let segs1 :=
          if rp < foundIdx ∧ 0 < segs.length then
            setLastReading segs (listSlice reading rp foundIdx)
          else if rp < foundIdx then
            segs ++ [⟨listSlice reading rp foundIdx, []⟩]
          else segs
        distLoop reading rn rest (foundIdx + kanaToFind.length) (segs1 ++ [⟨g, []⟩])
      | none => none
    else
      distLoop reading rn rest rp (segs ++ [⟨g, []⟩])

/-- `distributeFurigana` from anki-note-builder.ts. -/
def distributeFurigana (expression reading : List Char) : List FuriganaSegment :=
  if reading = expression ∨ reading = [] then [⟨expression, []⟩]
  else if isAllKana expression then [⟨expression, []⟩]
  else
    let groups := kanaGroups expression
    if groups.length = 1 then [⟨expression, reading⟩]
    else
      match distLoop reading (katakanaToHiragana reading) groups 0 [] with
      | none => [⟨expression, reading⟩]
      | some (segs, rp) =>
        if rp < reading.length then setLastKanjiReading segs (reading.drop rp)
        else segs

/-- Statement helper: the expression does not begin with a kana character
(vacuously true for the empty expression). -/
def headNotKana : List Char → Bool
  | [] => true
  | c :: _ => !isKanaChar c

/-- `buildFuriganaPlain` from anki-note-builder.ts: bracket notation,
segments joined with a single space. -/
def buildFuriganaPlain (expression reading : String) : String :=
  if reading = "" ∨ reading = expression then expression
  else
    String.intercalate " "
      ((distributeFurigana expression.data reading.data).map (fun seg =>
        if seg.reading.isEmpty then String.mk seg.text
        else String.mk seg.text ++ "[" ++ String.mk seg.reading ++ "]"))

/-- `buildFuriganaHtml` from anki-note-builder.ts: ruby markup, segments
concatenated with no separator. -/
def buildFuriganaHtml (expression reading : String) : String :=
  if reading = "" ∨ reading = expression then expression
  else
    String.join
      ((distributeFurigana expression.data reading.data).map (fun seg =>
        if seg.reading.isEmpty then String.mk seg.text
        else "<ruby>" ++ String.mk seg.text ++ "<rt>" ++ String.mk seg.reading ++ "</rt></ruby>"))

/-- The fixed small-kana set of `countMorae`. -/
def smallKana : List Char :=
  ['ゃ', 'ゅ', 'ょ', 'ぁ', 'ぃ', 'ぅ', 'ぇ', 'ぉ',
   'ャ', 'ュ', 'ョ', 'ァ', 'ィ', 'ゥ', 'ェ', 'ォ']

/-- `countMorae` from anki-note-builder.ts: count the characters of the
reading that are not small kana. -/
def countMorae (reading : String) : Nat :=
  reading.data.foldl (fun count c => if smallKana.contains c then count else count + 1) 0

/-- Modelled from the spec (§4.2 wording): mora count as the number of
characters of the reading outside the fixed small-kana set, for comparison
with the source's `countMorae` accumulator loop. -/
def moraCountSpec (reading : String) : Nat :=
  (reading.data.filter (fun c => !smallKana.contains c)).length

/-- `getPitchCategory` from anki-note-builder.ts. -/
def getPitchCategory (reading : String) (position : Nat) : String :=
  if position = 0 then "heiban"
  else if position = 1 then "atamadaka"
  else if position = countMorae reading then "odaka"
  else "nakadaka"

/-- One gloss of a sense (`str` plus the optional gloss type, where the
value `tm` marks a trademark). -/
structure Gloss where
  str : String
  type : Option String
deriving DecidableEq

/-- A word sense as consumed by the serializers (fields of the
`Sense` type of search-result.ts that anki-note-builder.ts reads). -/
structure Sense where
  g : List Gloss
  pos : Option (List String)
  misc : Option (List String)
  field : Option (List String)
  inf : Option String
  lang : Option String
deriving DecidableEq

/-- `glossesToStr` from anki-note-builder.ts. -/
def glossesToStr (sense : Sense) : String :=
  String.intercalate "; "
    (sense.g.map (fun g => g.str ++ if g.type = some "tm" then "™" else ""))

/-- `serializeSingleSenseFull` from anki-note-builder.ts.  A JavaScript
truthiness test `xs?.length` is modelled as `!(xs.getD []).isEmpty`, and
`if (sense.inf)` as `sense.inf.getD "" ≠ ""`. -/
def serializeSingleSenseFull (sense : Sense) : String :=
  String.intercalate " "
    ((if (sense.pos.getD []).isEmpty then []
      else ["<i>(" ++ String.intercalate ", " (sense.pos.getD []) ++ ")</i>"]) ++
     (if (sense.field.getD []).isEmpty then []
      else ["(" ++ String.intercalate ", " (sense.field.getD []) ++ ")"]) ++
     (if (sense.misc.getD []).isEmpty then []
      else ["(" ++ String.intercalate ", " (sense.misc.getD []) ++ ")"]) ++
     [glossesToStr sense] ++
     (if sense.inf.getD "" = "" then [] else ["(" ++ sense.inf.getD "" ++ ")"]))

/-- `serializeSingleSenseBrief` from anki-note-builder.ts. -/
def serializeSingleSenseBrief (sense : Sense) : String :=
  glossesToStr sense

/-- The serialization of one sense, selected by the `brief` option. -/
def senseText (brief : Bool) (sense : Sense) : String :=
  if brief then serializeSingleSenseBrief sense else serializeSingleSenseFull sense

/-- The `sense.lang && sense.lang !== 'en'` test of `serializeSensesHtml`
(truthiness excludes an absent or empty language tag). -/
def isNativeSense (sense : Sense) : Bool :=
  match sense.lang with
  | some l => !(l = "") && !(l = "en")
  | none => false

/-- The numbering loop of `serializeSensesHtml`, threading the `enIndex`
counter that only non-native-language senses increment. -/
def htmlSenseParts (brief : Bool) : List Sense → Nat → List String
  | [], _ => []
  | s :: rest, enIndex =>
    if isNativeSense s then
      ("• " ++ senseText brief s) :: htmlSenseParts brief rest enIndex
    else
      ("(" ++ toString enIndex ++ ") " ++ senseText brief s) :: htmlSenseParts brief rest (enIndex + 1)

/-- `serializeSensesHtml` from anki-note-builder.ts. -/
def serializeSensesHtml (senses : List Sense) (brief : Bool) : String :=
  match senses with
  | [] => ""
  | [s] => senseText brief s
  | _ => String.intercalate "<br>" (htmlSenseParts brief senses 1)

/-- Structural indexed map, used to model JavaScript's
`array.map((x, i) => ...)`. -/
def mapIdxFrom (f : Nat → α → β) : Nat → List α → List β
  | _, [] => []
  | i, a :: l => f i a :: mapIdxFrom f (i + 1) l

/-- `serializeSensesPlain` from anki-note-builder.ts. -/
def serializeSensesPlain (senses : List Sense) : String :=
  match senses with
  | [] => ""
  | _ =>
    String.intercalate "\n"
      (mapIdxFrom
        (fun i sense =>
          (if 1 < senses.length then "(" ++ toString (i + 1) ++ ") " else "") ++
          glossesToStr sense)
        0 senses)

/-- Modelled from the spec (§4.3 wording): each sense of a multi-sense HTML
serialization is prefixed with a bullet if native-language, else numbered by
the count of non-native-language senses seen so far (itself included). -/
def htmlPartsSpec (brief : Bool) (senses : List Sense) : List String :=
  mapIdxFrom
    (fun i s =>
      if isNativeSense s then "• " ++ senseText brief s
      else
        "(" ++ toString ((senses.take (i + 1)).countP (fun t => !isNativeSense t)) ++ ") " ++
          senseText brief s)
    0 senses

/-- Modelled from the spec (§4.3 wording): each sense of a multi-sense plain
serialization is numbered by its 1-based position. -/
def plainPartsSpec (senses : List Sense) : List String :=
  mapIdxFrom (fun i s => "(" ++ toString (i + 1) ++ ") " ++ glossesToStr s) 0 senses

/-- `AnkiNoteContext` from anki-note-builder.ts. -/
structure AnkiNoteContext where
  url : Option String
  documentTitle : Option String
  sentence : Option String
deriving DecidableEq

/-- A kanji headword of a `WordResult` (`ent` plus the optional match-info
flags, where `sK` marks a search-only form). -/
structure KanjiHeadword where
  ent : String
  i : Option (List String)
deriving DecidableEq

/-- The accent data of a reading: a plain number or an array of objects
whose `i` field is read. -/
inductive AccentData where
  | num (n : Nat)
  | many (l : List Nat)
deriving DecidableEq

/-- A reading of a `WordResult` (`ent`, optional match-info flags where `sk`
marks a search-only kana form, optional romaji, optional accent data). -/
structure ReadingEntry where
  ent : String
  i : Option (List String)
  romaji : Option String
  a : Option AccentData
deriving DecidableEq

/-- The fields of `WordResult` that anki-note-builder.ts reads. -/
structure WordResult where
  k : Option (List KanjiHeadword)
  r : List ReadingEntry
  s : List Sense
  reasonChains : Option (List (List Nat))
  frequencyRank : Option Nat
deriving DecidableEq

/-- The reading lists of a `KanjiResult` (`on` is a reserved word in Lean,
so the source's `r.on` field is named `onR` here; `kun` is `kunR` for
symmetry). -/
structure KanjiReadings where
  onR : Option (List String)
  kunR : Option (List String)
deriving DecidableEq

/-- The `misc` record of a `KanjiResult` (optional stroke count). -/
structure KanjiMisc where
  sc : Option Nat
deriving DecidableEq

/-- The fields of `KanjiResult` that anki-note-builder.ts reads. -/
structure KanjiResult where
  c : String
  r : KanjiReadings
  m : List String
  misc : Option KanjiMisc
deriving DecidableEq

/-- One translation of a `NameResult` (optional type tags and detail
strings). -/
structure NameTranslation where
  type : Option (List String)
  det : List String
deriving DecidableEq

/-- The fields of `NameResult` that anki-note-builder.ts reads. -/
structure NameResult where
  k : Option (List String)
  r : List String
  tr : List NameTranslation
deriving DecidableEq

/-- `CopyEntry` from copy-text.ts: the tagged union of the three entry
variants. -/
inductive CopyEntry where
  | word (data : WordResult)
  | kanji (data : KanjiResult)
  | name (data : NameResult)
deriving DecidableEq

/-- Remove the first occurrence of `pat` from `s` (JavaScript
`s.replace(pat, '')` with a string pattern). -/
def replaceOnceSub (s pat : List Char) : List Char :=
  match indexOfFrom s pat 0 with
  | some i => s.take i ++ s.drop (i + pat.length)
  | none => s

/-- The per-reason label of the conjugation marker.  Modelled from the spec
(§4.4): the table `deinflectL10NKeys` lives in `src/background/deinflect.ts`
which is not part of the provided sources, so it is passed as a parameter;
a known reason code maps to its key with the `deinflect_` marker stripped
and underscores turned into spaces, an unknown code renders as its raw
identifier. -/
def deinflectLabel (deinflectL10NKeys : Nat → Option String) (reason : Nat) : String :=
  match deinflectL10NKeys reason with
  | some key =>
    String.mk ((replaceOnceSub key.data "deinflect_".data).map
      (fun c => if c = '_' then ' ' else c))
  | none => toString reason

/-- Insertion-ordered de-duplication, modelling `Array.from(new Set(xs))`
and `[...new Set(xs)]`. -/
def dedupKeepFirst (l : List String) : List String :=
  l.foldl (fun acc x => if acc.contains x then acc else acc ++ [x]) []

/-- The pitch-accent loop of `buildWordMarkers`: walk the (non-search-only)
readings and collect the position strings and category strings in order. -/
def pitchAccentLists (readings : List ReadingEntry) : List String × List String :=
  readings.foldl
    (fun acc r =>
      match r.a with
      | some (AccentData.num n) =>
        (acc.1 ++ [toString n], acc.2 ++ [getPitchCategory r.ent n])
      | some (AccentData.many l) =>
        (acc.1 ++ l.map toString, acc.2 ++ l.map (getPitchCategory r.ent))
      | none => acc)
    ([], [])

/-- `buildWordMarkers` from anki-note-builder.ts. -/
def buildWordMarkers (deinflectL10NKeys : Nat → Option String) (word : WordResult)
    (context : Option AnkiNoteContext) : List (String × String) :=
  let kanjiHeadwords :=
    (word.k.getD []).filter (fun kh => !((kh.i.getD []).contains "sK"))
  let expression :=
    match kanjiHeadwords with
    | kh :: _ => kh.ent
    | [] => ((word.r.head?).map ReadingEntry.ent).getD ""
  let readings := word.r.filter (fun r => !((r.i.getD []).contains "sk"))
  let reading := ((readings.head?).map ReadingEntry.ent).getD ""
  let readingRomaji := String.intercalate ", " (readings.map (fun r => r.romaji.getD ""))
  let furiganaPlain := buildFuriganaPlain expression reading
  let furiganaHtml := buildFuriganaHtml expression reading
  let glossaryFull := serializeSensesHtml word.s false
  let glossaryBrief := serializeSensesHtml word.s true
  let glossaryPlain := serializeSensesPlain word.s
  let glossaryFirstBrief :=
    match word.s with
    | s :: _ => serializeSingleSenseBrief s
    | [] => ""
  let glossaryFirstFull :=
    match word.s with
    | s :: _ => serializeSingleSenseFull s
    | [] => ""
  let partOfSpeech :=
    String.intercalate ", " (dedupKeepFirst (word.s.flatMap (fun s => s.pos.getD [])))
  let pitch := pitchAccentLists readings
  let conjugation :=
    match word.reasonChains with
    | some chains =>
      if chains.isEmpty then ""
      else
        String.intercalate ", "
          (chains.map (fun chain =>
            String.intercalate " « " (chain.map (deinflectLabel deinflectL10NKeys))))
    | none => ""
  let tagsStr :=
    String.intercalate ", "
      (dedupKeepFirst
        (word.s.flatMap (fun s => s.pos.getD [] ++ s.misc.getD [] ++ s.field.getD [])))
  [("expression", expression),
   ("reading", reading),
   ("furigana", furiganaHtml),
   ("furigana-plain", furiganaPlain),
   ("glossary", glossaryFull),
   ("glossary-brief", glossaryBrief),
   ("glossary-no-dictionary", glossaryBrief),
   ("glossary-plain", glossaryPlain),
   ("glossary-plain-no-dictionary", glossaryPlain),
   ("glossary-first", glossaryFirstFull),
   ("glossary-first-brief", glossaryFirstBrief),
   ("glossary-first-no-dictionary", glossaryFirstBrief),
   ("part-of-speech", partOfSpeech),
   ("conjugation", conjugation),
   ("pitch-accent-positions", String.intercalate ", " pitch.1),
   ("pitch-accent-categories", String.intercalate ", " pitch.2),
   ("pitch-accents", String.intercalate ", " pitch.1),
   ("sentence", (context.bind AnkiNoteContext.sentence).getD ""),
   ("url", (context.bind AnkiNoteContext.url).getD ""),
   ("document-title", (context.bind AnkiNoteContext.documentTitle).getD ""),
   ("search-query", expression),
   ("tags", tagsStr),
   ("audio", ""),
   ("screenshot", ""),
   ("clipboard-image", ""),
   ("clipboard-text", ""),
   ("popup-selection-text", ""),
   ("sentence-furigana", ""),
   ("sentence-furigana-plain", ""),
   ("frequencies",
    match word.frequencyRank with
    | some rank =>
      "<ul style=\"text-align: left;\"><li>Global: " ++ toString rank ++ "</li></ul>"
    | none => ""),
   ("frequency-harmonic-rank",
    match word.frequencyRank with
    | some rank => toString rank
    | none => ""),
   ("frequency-harmonic-occurrence", ""),
   ("frequency-average-rank",
    match word.frequencyRank with
    | some rank => toString rank
    | none => ""),
   ("frequency-average-occurrence", ""),
   ("cloze-body", expression),
   ("cloze-body-kana", reading),
   ("cloze-prefix", ""),
   ("cloze-suffix", ""),
   ("phonetic-transcriptions", ""),
   ("pitch-accent-graphs", ""),
   ("pitch-accent-graphs-jj", ""),
   ("dictionary", ""),
   ("dictionary-alias", ""),
   ("reading-romaji", readingRomaji),
   ("definition", glossaryBrief),
   ("tags-pos", partOfSpeech)]

/-- `buildKanjiMarkers` from anki-note-builder.ts. -/
def buildKanjiMarkers (kanji : KanjiResult)
    (context : Option AnkiNoteContext) : List (String × String) :=
  let onReadings := kanji.r.onR.getD []
  let kunReadings := kanji.r.kunR.getD []
  let allReadings := String.intercalate "、" (onReadings ++ kunReadings)
  let meanings := String.intercalate ", " kanji.m
  [("expression", kanji.c),
   ("character", kanji.c),
   ("reading", allReadings),
   ("onyomi", String.intercalate "、" onReadings),
   ("kunyomi", String.intercalate "、" kunReadings),
   ("glossary", meanings),
   ("glossary-brief", meanings),
   ("glossary-plain", meanings),
   ("glossary-first", (kanji.m.head?).getD ""),
   ("glossary-first-brief", (kanji.m.head?).getD ""),
   ("definition", meanings),
   ("stroke-count",
    match kanji.misc with
    | some mc =>
      match mc.sc with
      | some n => if n = 0 then "" else toString n
      | none => ""
    | none => ""),
   ("url", (context.bind AnkiNoteContext.url).getD ""),
   ("document-title", (context.bind AnkiNoteContext.documentTitle).getD ""),
   ("sentence", (context.bind AnkiNoteContext.sentence).getD ""),
   ("furigana", kanji.c),
   ("furigana-plain", kanji.c),
   ("tags", ""),
   ("tags-pos", ""),
   ("part-of-speech", ""),
   ("reading-romaji", ""),
   ("audio", ""),
   ("popup-selection-text", ""),
   ("pitch-accent-positions", ""),
   ("pitch-accent-categories", ""),
   ("pitch-accents", ""),
   ("frequencies", ""),
   ("frequency-harmonic-rank", ""),
   ("frequency-harmonic-occurrence", ""),
   ("frequency-average-rank", ""),
   ("frequency-average-occurrence", ""),
   ("conjugation", ""),
   ("search-query", kanji.c)]

/-- `buildNameMarkers` from anki-note-builder.ts.  Note that in the source a
present-but-empty `name.k` array is truthy, so `expression` joins `name.k`
whenever it is present. -/
def buildNameMarkers (name : NameResult)
    (context : Option AnkiNoteContext) : List (String × String) :=
  let expression :=
    match name.k with
    | some ks => String.intercalate "、" ks
    | none => String.intercalate "、" name.r
  let reading := String.intercalate "、" name.r
  let definitions :=
    name.tr.map (fun tr =>
      String.intercalate " "
        ((if (tr.type.getD []).isEmpty then []
          else ["(" ++ String.intercalate ", " (tr.type.getD []) ++ ")"]) ++
         [String.intercalate ", " tr.det]))
  let definition := String.intercalate "; " definitions
  let primaryExpr :=
    (((name.k.getD []).head?).orElse (fun _ => name.r.head?)).getD ""
  let primaryReading := (name.r.head?).getD ""
  [("expression", expression),
   ("reading", reading),
   ("glossary", definition),
   ("glossary-brief", definition),
   ("glossary-plain", definition),
   ("glossary-first", (definitions.head?).getD ""),
   ("glossary-first-brief", (definitions.head?).getD ""),
   ("definition", definition),
   ("furigana", buildFuriganaPlain primaryExpr primaryReading),
   ("furigana-plain", buildFuriganaPlain primaryExpr primaryReading),
   ("url", (context.bind AnkiNoteContext.url).getD ""),
   ("document-title", (context.bind AnkiNoteContext.documentTitle).getD ""),
   ("sentence", (context.bind AnkiNoteContext.sentence).getD ""),
   ("tags", ""),
   ("tags-pos", ""),
   ("part-of-speech", ""),
   ("reading-romaji", ""),
   ("audio", ""),
   ("popup-selection-text", ""),
   ("pitch-accent-positions", ""),
   ("pitch-accent-categories", ""),
   ("pitch-accents", ""),
   ("frequencies", ""),
   ("frequency-harmonic-rank", ""),
   ("frequency-harmonic-occurrence", ""),
   ("frequency-average-rank", ""),
   ("frequency-average-occurrence", ""),
   ("conjugation", ""),
   ("search-query", expression)]

/-- `buildMarkerValues` from anki-note-builder.ts: dispatch on the entry
variant. -/
def buildMarkerValues (deinflectL10NKeys : Nat → Option String) (entry : CopyEntry)
    (context : Option AnkiNoteContext) : List (String × String) :=
  match entry with
  | CopyEntry.word data => buildWordMarkers deinflectL10NKeys data context
  | CopyEntry.kanji data => buildKanjiMarkers data context
  | CopyEntry.name data => buildNameMarkers data context

/-- `ANKI_FIELD_MARKERS` from anki-types.ts: the fixed marker vocabulary. -/
def ANKI_FIELD_MARKERS : List String :=
  ["expression", "reading", "reading-romaji", "furigana", "furigana-plain",
   "glossary", "glossary-brief", "glossary-plain", "glossary-no-dictionary",
   "glossary-plain-no-dictionary", "glossary-first", "glossary-first-brief",
   "glossary-first-no-dictionary", "definition",
   "part-of-speech", "tags-pos", "tags", "conjugation",
   "pitch-accent-positions", "pitch-accent-categories", "pitch-accents",
   "pitch-accent-graphs", "pitch-accent-graphs-jj",
   "sentence", "sentence-furigana", "sentence-furigana-plain", "url",
   "document-title", "search-query",
   "cloze-body", "cloze-body-kana", "cloze-prefix", "cloze-suffix",
   "audio", "screenshot", "clipboard-image", "clipboard-text",
   "popup-selection-text",
   "frequencies", "frequency-harmonic-rank", "frequency-harmonic-occurrence",
   "frequency-average-rank", "frequency-average-occurrence",
   "phonetic-transcriptions", "dictionary", "dictionary-alias",
   "character", "onyomi", "kunyomi", "stroke-count"]

/-- JavaScript `\w`: ASCII letter, digit or underscore. -/
def isWordChar (c : Char) : Bool :=
  ('a' ≤ c && c ≤ 'z') || ('A' ≤ c && c ≤ 'Z') || ('0' ≤ c && c ≤ '9') || c = '_'

/-- A character matched by `[\w-]`, the marker-name body class of the
template-rendering regex. -/
def isNameBodyChar (c : Char) : Bool :=
  isWordChar c || c = '-'

/-- Split off the maximal leading run of `[\w-]` characters. -/
def takeNameRun : List Char → List Char × List Char
  | [] => ([], [])
  | c :: rest =>
    if isNameBodyChar c then
      let p := takeNameRun rest
      (c :: p.1, p.2)
    else ([], c :: rest)

/-- A string matched by the marker pattern `[\w][\w-]*` of
`renderFieldTemplate`. -/
def validMarkerName (s : String) : Bool :=
  match s.data with
  | [] => false
  | c :: cs => isWordChar c && cs.all isNameBodyChar

/-- The scan of `template.replace(/\x7b([\w][\w-]*)\x7d/g, ...)` from
`renderFieldTemplate`: at each position, if the brace-delimited marker
pattern matches, substitute the marker's value (empty when absent) and
continue after the match, otherwise emit the character and move on by one.
The fuel argument (always at least the remaining length, so never
exhausted) makes the recursion structural. -/
def renderLoop (markerValues : List (String × String)) :
    Nat → List Char → List Char
  | 0, l => l
  | _ + 1, [] => []
  | fuel + 1, c :: rest =>
    if c = '{' then
      match rest with
      | [] => [c]
      | d :: ds =>
        if isWordChar d then
          let p := takeNameRun ds
          match p.2 with
          | e :: tail =>
            if e = '}' then
              ((markerValues.lookup (String.mk (d :: p.1))).getD "").data ++
                renderLoop markerValues fuel tail
            else c :: renderLoop markerValues fuel rest
          | [] => c :: renderLoop markerValues fuel rest
        else c :: renderLoop markerValues fuel rest
    else c :: renderLoop markerValues fuel rest

/-- `renderFieldTemplate` from anki-note-builder.ts. -/
def renderFieldTemplate (template : String)
    (markerValues : List (String × String)) : String :=
  String.mk (renderLoop markerValues template.data.length template.data)

/-- The duplicate-scope values of `AnkiSettings.duplicateScope`. -/
inductive DuplicateScope where
  | collection
  | deck
  | deckRoot
deriving DecidableEq

/-- The `duplicateScopeOptions` record of `NoteOptions` from anki-types.ts. -/
structure DuplicateScopeOptions where
  deckName : String
  checkChildren : Bool
  checkAllModels : Bool
deriving DecidableEq

/-- `NoteOptions` from anki-types.ts. -/
structure NoteOptions where
  allowDuplicate : Bool
  duplicateScope : DuplicateScope
  duplicateScopeOptions : DuplicateScopeOptions
deriving DecidableEq

/-- `AnkiNote` from anki-types.ts. -/
structure AnkiNote where
  deckName : String
  modelName : String
  fields : List (String × String)
  tags : List String
  options : NoteOptions
deriving DecidableEq

/-- The fields of `AnkiSettings` from anki-types.ts that `buildAnkiNote`
reads. -/
structure AnkiSettings where
  deckName : String
  modelName : String
  tags : List String
  fieldTemplates : List (String × String)
  duplicateScope : DuplicateScope
  checkForDuplicates : Bool
deriving DecidableEq

/-- JavaScript record assignment `m[k] = v`: overwrite the value of an
existing key in place, or append a new key. -/
def recordSet (m : List (String × String)) (k v : String) : List (String × String) :=
  if m.any (fun p => p.1 = k) then
    m.map (fun p => if p.1 = k then (p.1, v) else p)
  else m ++ [(k, v)]

/-- The `for (const [key, value] of Object.entries(markerOverrides))` loop
of `buildAnkiNote`. -/
def applyOverrides (m : List (String × String))
    (ov : List (String × String)) : List (String × String) :=
  ov.foldl (fun acc p => recordSet acc p.1 p.2) m

/-- `buildAnkiNote` from anki-note-builder.ts. -/
def buildAnkiNote (deinflectL10NKeys : Nat → Option String) (entry : CopyEntry)
    (settings : AnkiSettings) (context : Option AnkiNoteContext)
    (markerOverrides : Option (List (String × String))) : AnkiNote :=
  let markerValues := buildMarkerValues deinflectL10NKeys entry context
  let markerValues :=
    match markerOverrides with
    | some ov => applyOverrides markerValues ov
    | none => markerValues
  let fields :=
    settings.fieldTemplates.map (fun p => (p.1, renderFieldTemplate p.2 markerValues))
  { deckName := settings.deckName
    modelName := settings.modelName
    fields := fields
    tags := settings.tags
    options :=
      { allowDuplicate := !settings.checkForDuplicates
        duplicateScope := settings.duplicateScope
        duplicateScopeOptions :=
          { deckName := settings.deckName
            checkChildren := true
            checkAllModels := false } } }

/-- The keys of the word-variant marker map. -/
def wordMarkerKeys : List String :=
  ["expression", "reading", "furigana", "furigana-plain", "glossary",
   "glossary-brief", "glossary-no-dictionary", "glossary-plain",
   "glossary-plain-no-dictionary", "glossary-first", "glossary-first-brief",
   "glossary-first-no-dictionary", "part-of-speech", "conjugation",
   "pitch-accent-positions", "pitch-accent-categories", "pitch-accents",
   "sentence", "url", "document-title", "search-query", "tags", "audio",
   "screenshot", "clipboard-image", "clipboard-text", "popup-selection-text",
   "sentence-furigana", "sentence-furigana-plain", "frequencies",
   "frequency-harmonic-rank", "frequency-harmonic-occurrence",
   "frequency-average-rank", "frequency-average-occurrence", "cloze-body",
   "cloze-body-kana", "cloze-prefix", "cloze-suffix",
   "phonetic-transcriptions", "pitch-accent-graphs", "pitch-accent-graphs-jj",
   "dictionary", "dictionary-alias", "reading-romaji", "definition",
   "tags-pos"]

/-- The keys of the kanji-variant marker map. -/
def kanjiMarkerKeys : List String :=
  ["expression", "character", "reading", "onyomi", "kunyomi", "glossary",
   "glossary-brief", "glossary-plain", "glossary-first",
   "glossary-first-brief", "definition", "stroke-count", "url",
   "document-title", "sentence", "furigana", "furigana-plain", "tags",
   "tags-pos", "part-of-speech", "reading-romaji", "audio",
   "popup-selection-text", "pitch-accent-positions",
   "pitch-accent-categories", "pitch-accents", "frequencies",
   "frequency-harmonic-rank", "frequency-harmonic-occurrence",
   "frequency-average-rank", "frequency-average-occurrence", "conjugation",
   "search-query"]

/-- The keys of the name-variant marker map. -/
def nameMarkerKeys : List String :=
  ["expression", "reading", "glossary", "glossary-brief", "glossary-plain",
   "glossary-first", "glossary-first-brief", "definition", "furigana",
   "furigana-plain", "url", "document-title", "sentence", "tags", "tags-pos",
   "part-of-speech", "reading-romaji", "audio", "popup-selection-text",
   "pitch-accent-positions", "pitch-accent-categories", "pitch-accents",
   "frequencies", "frequency-harmonic-rank", "frequency-harmonic-occurrence",
   "frequency-average-rank", "frequency-average-occurrence", "conjugation",
   "search-query"]

/-- The fixed key set of the marker map of each entry variant. -/
def markerKeysFor : CopyEntry → List String
  | CopyEntry.word _ => wordMarkerKeys
  | CopyEntry.kanji _ => kanjiMarkerKeys
  | CopyEntry.name _ => nameMarkerKeys

/-- The word-map markers whose value is the constant empty string (media,
clipboard, sentence-furigana, frequency-occurrence, cloze affix, phonetic,
pitch-graph and dictionary markers: not available to this engine). -/
def emptyWordMarkerKeys : List String :=
  ["audio", "screenshot", "clipboard-image", "clipboard-text",
   "popup-selection-text", "sentence-furigana", "sentence-furigana-plain",
   "frequency-harmonic-occurrence", "frequency-average-occurrence",
   "cloze-prefix", "cloze-suffix", "phonetic-transcriptions",
   "pitch-accent-graphs", "pitch-accent-graphs-jj", "dictionary",
   "dictionary-alias"]

/-- The kanji-map markers whose value is the constant empty string
(word-only grammar, pitch and frequency markers plus media markers). -/
def emptyKanjiMarkerKeys : List String :=
  ["tags", "tags-pos", "part-of-speech", "reading-romaji", "audio",
   "popup-selection-text", "pitch-accent-positions",
   "pitch-accent-categories", "pitch-accents", "frequencies",
   "frequency-harmonic-rank", "frequency-harmonic-occurrence",
   "frequency-average-rank", "frequency-average-occurrence", "conjugation"]

/-- The name-map markers whose value is the constant empty string. -/
def emptyNameMarkerKeys : List String :=
  ["tags", "tags-pos", "part-of-speech", "reading-romaji", "audio",
   "popup-selection-text", "pitch-accent-positions",
   "pitch-accent-categories", "pitch-accents", "frequencies",
   "frequency-harmonic-rank", "frequency-harmonic-occurrence",
   "frequency-average-rank", "frequency-average-occurrence", "conjugation"]

/-- Per entry variant, the markers that are present in the map but not
applicable to the variant, all carrying the empty string. -/
def emptyMarkerKeysFor : CopyEntry → List String
  | CopyEntry.word _ => emptyWordMarkerKeys
  | CopyEntry.kanji _ => emptyKanjiMarkerKeys
  | CopyEntry.name _ => emptyNameMarkerKeys

/-- A concrete kanji entry (the character 日) used as a test input. -/
def exampleKanji : KanjiResult :=
  { c := "日"
    r := { onR := some ["ニチ"], kunR := some ["ひ"] }
    m := ["day", "sun"]
    misc := some { sc := some 4 } }

/-- A concrete word entry (猫/ねこ) used as a test input. -/
def exampleWord : WordResult :=
  { k := some [{ ent := "猫", i := none }]
    r := [{ ent := "ねこ", i := none, romaji := none, a := some (AccentData.num 1) }]
    s := [{ g := [{ str := "cat", type := none }], pos := some ["n"],
            misc := none, field := none, inf := none, lang := none }]
    reasonChains := none
    frequencyRank := none }

/-- A concrete word entry whose only kanji-free fallback exercises the
search-only-kana flag: the first reading carries `sk`, the second does
not. -/
def exampleSkWord : WordResult :=
  { k := none
    r := [{ ent := "あ", i := some ["sk"], romaji := none, a := none },
          { ent := "い", i := none, romaji := none, a := none }]
    s := []
    reasonChains := none
    frequencyRank := none }

/-- A concrete native-language (German) sense used as a test input. -/
def exampleSenseDe : Sense :=
  { g := [{ str := "Katze", type := none }]
    pos := none, misc := none, field := none, inf := none, lang := some "de" }

/-- A concrete English sense used as a test input. -/
def exampleSenseEn : Sense :=
  { g := [{ str := "cat", type := none }]
    pos := none, misc := none, field := none, inf := none, lang := none }

/-- The accumulator loop of `countMorae` counts exactly the characters
outside the small-kana set. -/
lemma countMorae_go (l : List Char) :
    ∀ n : Nat,
      l.foldl (fun count c => if smallKana.contains c then count else count + 1) n =
        n + (l.filter (fun c => !smallKana.contains c)).length := by
  induction l with
  | nil => intro n; simp
  | cons c l ih =>
    intro n
    by_cases h : smallKana.contains c = true
    · rw [List.foldl_cons, List.filter_cons]
      simp only [h, if_true, Bool.not_true, Bool.false_eq_true, if_false]
      exact ih n
    · rw [List.foldl_cons, List.filter_cons]
      have h' : smallKana.contains c = false := by
        cases hc : smallKana.contains c
        · rfl
        · exact absurd hc h
      simp only [h', Bool.false_eq_true, if_false, Bool.not_false, if_true]
      rw [ih (n + 1)]
      simp only [List.length_cons]
      omega

/-- `countMorae` agrees with the spec-level filter count. -/
lemma countMorae_eq_spec (reading : String) : countMorae reading = moraCountSpec reading := by
  simpa [countMorae, moraCountSpec] using countMorae_go reading.data 0

/-- C5: the pitch-accent classifier returns heiban for drop position 0,
atamadaka for 1, odaka for the mora count and nakadaka otherwise (the
conditions applying in that order), where the mora count is the number of
characters of the reading outside the fixed small-kana set; and on たべる
the four concrete classifications of the claim hold. -/
theorem pitch_category_classification :
    (∀ (reading : String) (position : Nat),
      getPitchCategory reading position =
        if position = 0 then "heiban"
        else if position = 1 then "atamadaka"
        else if position = moraCountSpec reading then "odaka"
        else "nakadaka") ∧
    countMorae "たべる" = 3 ∧
    getPitchCategory "たべる" 0 = "heiban" ∧
    getPitchCategory "たべる" 1 = "atamadaka" ∧
    getPitchCategory "たべる" 3 = "odaka" ∧
    getPitchCategory "たべる" 2 = "nakadaka" := by
  refine ⟨fun reading position => ?_, by decide, by decide, by decide, by decide, by decide⟩
  simp only [getPitchCategory, countMorae_eq_spec]

/-- `takeNameRun` splits a run of marker-name characters exactly at the
first character outside the class. -/
lemma takeNameRun_split (ds : List Char) (c : Char) (t : List Char)
    (hds : ds.all isNameBodyChar = true) (hc : isNameBodyChar c = false) :
    takeNameRun (ds ++ c :: t) = (ds, c :: t) := by
  induction ds with
  | nil => simp [takeNameRun, hc]
  | cons d ds ih =>
    simp only [List.all_cons, Bool.and_eq_true] at hds
    simp [takeNameRun, hds.1, ih hds.2]

/-- Rendering a template that is exactly one marker pattern yields the
marker's value (empty when absent). -/
lemma renderLoop_marker (markerValues : List (String × String)) (d : Char)
    (cs : List Char) (fuel : Nat) (h1 : isWordChar d = true)
    (h2 : cs.all isNameBodyChar = true) :
    renderLoop markerValues (fuel + 1) ('{' :: d :: (cs ++ '}' :: [])) =
      ((markerValues.lookup (String.mk (d :: cs))).getD "").data := by
  have hsplit := takeNameRun_split cs '}' [] h2 (by decide)
  simp only [renderLoop, if_pos rfl, h1, if_true, hsplit]
  cases fuel <;> simp [renderLoop]

/-- `renderFieldTemplate` on a single brace-delimited valid marker name
substitutes the marker's value, or the empty string when the name is not in
the map. -/
lemma renderFieldTemplate_marker (markerValues : List (String × String))
    (nm : String) (h : validMarkerName nm = true) :
    renderFieldTemplate ("\x7b" ++ nm ++ "\x7d") markerValues =
      (markerValues.lookup nm).getD "" := by
  rcases nm with ⟨l⟩
  cases l with
  | nil => simp [validMarkerName] at h
  | cons d cs =>
    simp only [validMarkerName, Bool.and_eq_true] at h
    have hdata : ("\x7b" ++ String.mk (d :: cs) ++ "\x7d").data =
        '{' :: d :: (cs ++ '}' :: []) := by
      simp [String.data_append]
    simp only [renderFieldTemplate, hdata]
    have hlen : ('{' :: d :: (cs ++ '}' :: [])).length = (cs.length + 2) + 1 := by
      simp
    rw [hlen, renderLoop_marker markerValues d cs (cs.length + 2) h.1 h.2]

/-- C7: the template renderer substitutes each brace-delimited marker
pattern with the mapped value (empty when absent), is non-recursive, and
evaluates the claim's two concrete examples as stated. -/
theorem render_field_template_spec :
    renderFieldTemplate "{expression}: {reading}"
        [("expression", "猫"), ("reading", "ねこ")] = "猫: ねこ" ∧
    renderFieldTemplate "{unknown}" [] = "" ∧
    (∀ (markerValues : List (String × String)) (nm : String),
      validMarkerName nm = true →
      renderFieldTemplate ("\x7b" ++ nm ++ "\x7d") markerValues =
        (markerValues.lookup nm).getD "") ∧
    renderFieldTemplate "{a}" [("a", "{b}"), ("b", "X")] = "{b}" :=
  ⟨by decide, by decide, renderFieldTemplate_marker, by decide⟩

/-- Witness for C7: the general marker-substitution conjunct applied to a
concrete map and marker name. -/
theorem render_field_template_spec_witness :
    validMarkerName "expression" = true ∧
    renderFieldTemplate "{expression}" [("expression", "猫")] =
      (([("expression", "猫")].lookup "expression").getD "") :=
  ⟨by decide,
   render_field_template_spec.2.2.1 [("expression", "猫")] "expression" (by decide)⟩

/-- C8: the assembled note renders each field independently from its
template over the (override-merged) marker map, copies the settings' tags,
negates the duplicate-check setting into `allowDuplicate`, copies the
duplicate scope, and sets the duplicate-scope options to the target deck
with child-deck checking on and cross-model checking off. -/
theorem build_anki_note_structure (deinflectL10NKeys : Nat → Option String)
    (entry : CopyEntry) (settings : AnkiSettings)
    (context : Option AnkiNoteContext)
    (markerOverrides : Option (List (String × String))) :
    (buildAnkiNote deinflectL10NKeys entry settings context markerOverrides).fields =
      settings.fieldTemplates.map (fun p =>
        (p.1, renderFieldTemplate p.2
          (match markerOverrides with
           | some ov => applyOverrides (buildMarkerValues deinflectL10NKeys entry context) ov
           | none => buildMarkerValues deinflectL10NKeys entry context))) ∧
    (buildAnkiNote deinflectL10NKeys entry settings context markerOverrides).tags =
      settings.tags ∧
    (buildAnkiNote deinflectL10NKeys entry settings context markerOverrides).deckName =
      settings.deckName ∧
    (buildAnkiNote deinflectL10NKeys entry settings context markerOverrides).modelName =
      settings.modelName ∧
    (buildAnkiNote deinflectL10NKeys entry settings context
        markerOverrides).options.allowDuplicate = !settings.checkForDuplicates ∧
    (buildAnkiNote deinflectL10NKeys entry settings context
        markerOverrides).options.duplicateScope = settings.duplicateScope ∧
    (buildAnkiNote deinflectL10NKeys entry settings context
        markerOverrides).options.duplicateScopeOptions.deckName = settings.deckName ∧
    (buildAnkiNote deinflectL10NKeys entry settings context
        markerOverrides).options.duplicateScopeOptions.checkChildren = true ∧
    (buildAnkiNote deinflectL10NKeys entry settings context
        markerOverrides).options.duplicateScopeOptions.checkAllModels = false :=
  ⟨rfl, rfl, rfl, rfl, rfl, rfl, rfl, rfl, rfl⟩

/-- Looking up a key after the in-place overwrite of `recordSet`'s map
branch yields the new value, provided the key was present. -/
lemma lookup_map_overwrite (m : List (String × String)) (k v : String)
    (h : m.any (fun p => decide (p.1 = k)) = true) :
    (m.map (fun p => if p.1 = k then (p.1, v) else p)).lookup k = some v := by
  induction m with
  | nil => simp at h
  | cons a m ih =>
    simp only [List.map_cons]
    by_cases ha : a.1 = k
    · rw [if_pos ha]
      have hk : (k == a.1) = true := by simp [ha]
      simp [List.lookup, hk]
    · rw [if_neg ha]
      have h' : m.any (fun p => decide (p.1 = k)) = true := by
        simpa [List.any_cons, ha] using h
      have hne : (k == a.1) = false := by
        simp [Ne.symm ha]
      simp [List.lookup, hne, ih h']

/-- A key matched by no entry of an association list looks up to `none`. -/
lemma lookup_none_of_not_any (m : List (String × String)) (k : String)
    (h : m.any (fun p => decide (p.1 = k)) = false) : m.lookup k = none := by
  induction m with
  | nil => rfl
  | cons a m ih =>
    simp only [List.any_cons, Bool.or_eq_false_iff] at h
    have hne : (k == a.1) = false := by
      have : ¬(a.1 = k) := by simpa using h.1
      simp [Ne.symm this]
    simp [List.lookup, hne, ih h.2]

/-- Lookup distributes over append when the key misses the first list. -/
lemma lookup_append_of_none (m l : List (String × String)) (k : String)
    (h : m.lookup k = none) : (m ++ l).lookup k = l.lookup k := by
  induction m with
  | nil => rfl
  | cons a m ih =>
    by_cases ha : (k == a.1) = true
    · simp [List.lookup, ha] at h
    · have ha' : (k == a.1) = false := by
        cases hc : (k == a.1)
        · rfl
        · exact absurd hc ha
      simp only [List.lookup, ha'] at h
      simp [List.lookup, ha', ih h]

/-- `recordSet` makes the assigned key look up to the assigned value. -/
lemma recordSet_lookup_self (m : List (String × String)) (k v : String) :
    (recordSet m k v).lookup k = some v := by
  unfold recordSet
  by_cases h : m.any (fun p => decide (p.1 = k)) = true
  · simp only [h, if_true]
    exact lookup_map_overwrite m k v h
  · have h' : m.any (fun p => decide (p.1 = k)) = false := by
      cases hc : m.any (fun p => decide (p.1 = k))
      · rfl
      · exact absurd hc h
    simp only [h', Bool.false_eq_true, if_false]
    rw [lookup_append_of_none m _ k (lookup_none_of_not_any m k h')]
    simp [List.lookup]

/-- Overwriting the values of a different key does not change a lookup. -/
lemma lookup_map_overwrite_other (m : List (String × String)) (k k' v : String)
    (h : k' ≠ k) :
    (m.map (fun p => if p.1 = k' then (p.1, v) else p)).lookup k = m.lookup k := by
  induction m with
  | nil => rfl
  | cons a m ih =>
    simp only [List.map_cons]
    by_cases ha : a.1 = k'
    · rw [if_pos ha]
      have hne : (k == a.1) = false := by
        simp [ha, Ne.symm h]
      simp [List.lookup, hne, ih]
    · rw [if_neg ha]
      cases hc : (k == a.1) <;> simp [List.lookup, hc, ih]

/-- Lookup still finds a first-list hit after an append. -/
lemma lookup_append_of_some (m l : List (String × String)) (k w : String)
    (h : m.lookup k = some w) : (m ++ l).lookup k = some w := by
  induction m with
  | nil => simp [List.lookup] at h
  | cons a m ih =>
    cases hc : (k == a.1)
    · simp only [List.lookup, hc] at h
      simp only [List.cons_append, List.lookup, hc]
      exact ih h
    · simp only [List.lookup, hc] at h
      simp [List.lookup, hc, h]

/-- `recordSet` leaves the lookup of every other key unchanged. -/
lemma recordSet_lookup_other (m : List (String × String)) (k k' v : String)
    (h : k' ≠ k) : (recordSet m k' v).lookup k = m.lookup k := by
  unfold recordSet
  by_cases hany : m.any (fun p => decide (p.1 = k')) = true
  · simp only [hany, if_true]
    exact lookup_map_overwrite_other m k k' v h
  · have h' : m.any (fun p => decide (p.1 = k')) = false := by
      cases hc : m.any (fun p => decide (p.1 = k'))
      · rfl
      · exact absurd hc hany
    simp only [h', Bool.false_eq_true, if_false]
    cases hm : m.lookup k with
    | some w => exact lookup_append_of_some m _ k w hm
    | none =>
      rw [lookup_append_of_none m _ k hm]
      have hkk : (k == k') = false := by simp [Ne.symm h]
      simp [List.lookup, hkk]

/-- Override entries whose keys avoid `k` leave `k`'s lookup unchanged. -/
lemma applyOverrides_lookup_of_not_mem (ov : List (String × String)) :
    ∀ (m : List (String × String)) (k : String),
      k ∉ ov.map Prod.fst →
      (applyOverrides m ov).lookup k = m.lookup k := by
  induction ov with
  | nil => intro m k _; rfl
  | cons p rest ih =>
    intro m k hk
    simp only [List.map_cons, List.mem_cons, not_or] at hk
    have step : applyOverrides m (p :: rest) = applyOverrides (recordSet m p.1 p.2) rest := rfl
    rw [step, ih (recordSet m p.1 p.2) k hk.2,
      recordSet_lookup_other m k p.1 p.2 (fun he => hk.1 he.symm)]

/-- After applying an override list with distinct keys, each overridden key
looks up to its override value. -/
lemma applyOverrides_lookup_mem (ov : List (String × String)) :
    ∀ (m : List (String × String)) (k v : String),
      (k, v) ∈ ov → (ov.map Prod.fst).Nodup →
      (applyOverrides m ov).lookup k = some v := by
  induction ov with
  | nil => intro m k v hmem _; simp at hmem
  | cons p rest ih =>
    intro m k v hmem hnd
    have step : applyOverrides m (p :: rest) = applyOverrides (recordSet m p.1 p.2) rest := rfl
    simp only [List.map_cons, List.nodup_cons] at hnd
    rcases List.mem_cons.mp hmem with heq | hmem'
    · subst heq
      rw [step, applyOverrides_lookup_of_not_mem rest _ k hnd.1,
        recordSet_lookup_self]
    · rw [step]
      exact ih _ k v hmem' hnd.2

/-- C10: every key of the override mapping replaces the computed marker
value in the merged map, and rendering its brace pattern in a field
template substitutes the override value — whether or not the key belongs to
the fixed marker vocabulary. -/
theorem marker_overrides_take_precedence (deinflectL10NKeys : Nat → Option String)
    (entry : CopyEntry) (context : Option AnkiNoteContext)
    (ov : List (String × String)) (k v : String)
    (hmem : (k, v) ∈ ov) (hnd : (ov.map Prod.fst).Nodup)
    (hname : validMarkerName k = true) :
    (applyOverrides (buildMarkerValues deinflectL10NKeys entry context) ov).lookup k =
      some v ∧
    (∀ (settings : AnkiSettings) (fieldName : String),
      settings.fieldTemplates = [(fieldName, "\x7b" ++ k ++ "\x7d")] →
      (buildAnkiNote deinflectL10NKeys entry settings context (some ov)).fields =
        [(fieldName, v)]) := by
  have hl := applyOverrides_lookup_mem ov
    (buildMarkerValues deinflectL10NKeys entry context) k v hmem hnd
  refine ⟨hl, fun settings fieldName hft => ?_⟩
  simp only [buildAnkiNote, hft, List.map_cons, List.map_nil,
    renderFieldTemplate_marker _ _ hname, hl, Option.getD_some]

/-- Witness for C10: a concrete override whose key is outside the fixed
marker vocabulary replaces the computed marker map entry. -/
theorem marker_overrides_take_precedence_witness :
    (("customsound", "clip.mp3") ∈ [("customsound", "clip.mp3")] ∧
      ([("customsound", "clip.mp3")].map
        (Prod.fst (α := String) (β := String))).Nodup ∧
      validMarkerName "customsound" = true ∧
      ANKI_FIELD_MARKERS.contains "customsound" = false) ∧
    (applyOverrides (buildMarkerValues (fun _ => none) (CopyEntry.kanji exampleKanji) none)
        [("customsound", "clip.mp3")]).lookup "customsound" = some "clip.mp3" :=
  ⟨⟨by decide, by decide, by decide, by decide⟩,
   (marker_overrides_take_precedence (fun _ => none) (CopyEntry.kanji exampleKanji) none
     [("customsound", "clip.mp3")] "customsound" "clip.mp3"
     (by decide) (by decide) (by decide)).1⟩

/-- Counterexample for C2: `cloze-body` belongs to the fixed marker
vocabulary but is absent from the kanji marker map, and `character` belongs
to the vocabulary but is absent from the word marker map. -/
theorem marker_map_missing_key_counterexample :
    ANKI_FIELD_MARKERS.contains "cloze-body" = true ∧
    (buildKanjiMarkers exampleKanji none).lookup "cloze-body" = none ∧
    ANKI_FIELD_MARKERS.contains "character" = true ∧
    (buildWordMarkers (fun _ => none) exampleWord none).lookup "character" = none :=
  ⟨by decide, by decide, by decide, by decide⟩

/-- C2 (amended): each entry variant produces a marker map with a fixed,
entry-independent key list, every key drawn from the fixed vocabulary, and
every present-but-inapplicable marker of the variant carries the empty
string; but the vocabulary is not fully covered by any variant (see the
counterexample). -/
theorem marker_map_fixed_keys (deinflectL10NKeys : Nat → Option String)
    (entry : CopyEntry) (context : Option AnkiNoteContext) :
    (buildMarkerValues deinflectL10NKeys entry context).map Prod.fst =
      markerKeysFor entry ∧
    (markerKeysFor entry).all (fun k => ANKI_FIELD_MARKERS.contains k) = true ∧
    (emptyMarkerKeysFor entry).all
      (fun k =>
        (buildMarkerValues deinflectL10NKeys entry context).lookup k == some "") =
      true := by
  cases entry <;>
    exact ⟨rfl, by simp only [markerKeysFor]; decide, rfl⟩

/-- The head of a filtered list is the first element satisfying the
predicate. -/
lemma filter_head?_eq_find? (p : α → Bool) (l : List α) :
    (l.filter p).head? = l.find? p := by
  induction l with
  | nil => rfl
  | cons a l ih =>
    by_cases ha : p a = true
    · simp [List.filter_cons, List.find?_cons, ha]
    · have ha' : p a = false := by
        cases hc : p a
        · rfl
        · exact absurd hc ha
      simp [List.filter_cons, List.find?_cons, ha', ih]

/-- Counterexample for C3: with no kanji headwords, a first reading flagged
`sk` and a second unflagged reading, the first non-search-only-kana reading
is い but the expression marker is the flagged reading あ. -/
theorem word_expression_fallback_counterexample :
    ((exampleSkWord.r.find? (fun r => !((r.i.getD []).contains "sk"))).map
      ReadingEntry.ent) = some "い" ∧
    (buildWordMarkers (fun _ => none) exampleSkWord none).lookup "expression" =
      some "あ" ∧
    ("あ" : String) ≠ "い" :=
  ⟨by decide, by decide, by decide⟩

/-- C3 (amended): the expression marker is the first kanji headword not
flagged `sK`, falling back — when no kanji headword survives — to the first
reading regardless of its flags (empty when there are no readings); the
reading marker is the first reading not flagged `sk` (empty when none). -/
theorem word_expression_reading_markers (deinflectL10NKeys : Nat → Option String)
    (word : WordResult) (context : Option AnkiNoteContext) :
    (buildWordMarkers deinflectL10NKeys word context).lookup "expression" =
      some ((((word.k.getD []).find? (fun kh => !((kh.i.getD []).contains "sK"))).map
          KanjiHeadword.ent).getD (((word.r.head?).map ReadingEntry.ent).getD "")) ∧
    (buildWordMarkers deinflectL10NKeys word context).lookup "reading" =
      some (((word.r.find? (fun r => !((r.i.getD []).contains "sk"))).map
          ReadingEntry.ent).getD "") := by
  constructor
  · have h0 : (buildWordMarkers deinflectL10NKeys word context).lookup "expression" =
        some (match (word.k.getD []).filter
            (fun kh => !((kh.i.getD []).contains "sK")) with
          | kh :: _ => kh.ent
          | [] => ((word.r.head?).map ReadingEntry.ent).getD "") := rfl
    rw [h0]
    have hf := filter_head?_eq_find?
      (fun kh => !((kh.i.getD []).contains "sK")) (word.k.getD [])
    cases hfl : (word.k.getD []).filter (fun kh => !((kh.i.getD []).contains "sK")) with
    | nil => rw [hfl] at hf; rw [← hf]; rfl
    | cons kh tl => rw [hfl] at hf; rw [← hf]; rfl
  · have h0 : (buildWordMarkers deinflectL10NKeys word context).lookup "reading" =
        some ((((word.r.filter (fun r => !((r.i.getD []).contains "sk"))).head?).map
          ReadingEntry.ent).getD "") := rfl
    rw [h0, filter_head?_eq_find?]

/-- C9: the kanji-variant marker map sets both furigana markers to the bare
kanji character, with no bracket or ruby annotation, even when the on/kun
readings are non-empty and populate the reading marker. -/
theorem kanji_furigana_markers (kanji : KanjiResult)
    (context : Option AnkiNoteContext)
    (_h : kanji.r.onR.getD [] ++ kanji.r.kunR.getD [] ≠ []) :
    (buildKanjiMarkers kanji context).lookup "furigana" = some kanji.c ∧
    (buildKanjiMarkers kanji context).lookup "furigana-plain" = some kanji.c ∧
    (buildKanjiMarkers kanji context).lookup "reading" =
      some (String.intercalate "、" (kanji.r.onR.getD [] ++ kanji.r.kunR.getD [])) :=
  ⟨rfl, rfl, rfl⟩

/-- Witness for C9 at a concrete kanji entry with non-empty readings. -/
theorem kanji_furigana_markers_witness :
    exampleKanji.r.onR.getD [] ++ exampleKanji.r.kunR.getD [] ≠ [] ∧
    (buildKanjiMarkers exampleKanji none).lookup "furigana" = some "日" :=
  ⟨by decide, (kanji_furigana_markers exampleKanji none (by decide)).1⟩

/-- Shifting the start index of `mapIdxFrom` into the function. -/
lemma mapIdxFrom_shift (f : Nat → α → β) :
    ∀ (l : List α) (n : Nat),
      mapIdxFrom f (n + 1) l = mapIdxFrom (fun i a => f (i + 1) a) n l := by
  intro l
  induction l with
  | nil => intro n; rfl
  | cons a l ih => intro n; simp [mapIdxFrom, ih]

/-- Pointwise-equal functions give equal indexed maps. -/
lemma mapIdxFrom_congr (f g : Nat → α → β) (h : ∀ i a, f i a = g i a) :
    ∀ (l : List α) (n : Nat), mapIdxFrom f n l = mapIdxFrom g n l := by
  intro l
  induction l with
  | nil => intro n; rfl
  | cons a l ih => intro n; simp [mapIdxFrom, h, ih]

/-- The `enIndex` numbering loop of `serializeSensesHtml` computes, for the
i-th sense, the count of non-native-language senses among the first `i + 1`
senses (offset by the loop's starting index). -/
lemma htmlSenseParts_spec (brief : Bool) :
    ∀ (senses : List Sense) (base : Nat),
      htmlSenseParts brief senses (base + 1) =
        mapIdxFrom
          (fun i s =>
            if isNativeSense s then "• " ++ senseText brief s
            else
              "(" ++ toString (base + (senses.take (i + 1)).countP
                  (fun t => !isNativeSense t)) ++ ") " ++ senseText brief s)
          0 senses := by
  intro senses
  induction senses with
  | nil => intro base; rfl
  | cons s rest ih =>
    intro base
    by_cases hn : isNativeSense s = true
    · simp only [htmlSenseParts, hn, if_true, mapIdxFrom]
      congr 1
      rw [show (0 : Nat) + 1 = 1 from rfl] at *
      rw [show (1 : Nat) = 0 + 1 from rfl, mapIdxFrom_shift, ih base]
      refine mapIdxFrom_congr _ _ (fun i a => ?_) rest 0
      by_cases hna : isNativeSense a = true
      · simp [hna]
      · simp [hna, List.take_succ_cons, List.countP_cons, hn]
    · have hn' : isNativeSense s = false := by
        cases hc : isNativeSense s
        · rfl
        · exact absurd hc hn
      simp only [htmlSenseParts, hn', Bool.false_eq_true, if_false, mapIdxFrom]
      congr 1
      · have h1 : ((s :: rest).take (0 + 1)).countP (fun t => !isNativeSense t) = 1 := by
          simp [List.take_succ_cons, List.countP_cons, hn']
        rw [h1]
      · rw [show (0 : Nat) + 1 = 1 from rfl, show (1 : Nat) = 0 + 1 from rfl,
          mapIdxFrom_shift, ih (base + 1)]
        refine mapIdxFrom_congr _ _ (fun i a => ?_) rest 0
        by_cases hna : isNativeSense a = true
        · simp [hna]
        · have hcount : ((s :: rest).take (i + 1 + 1)).countP (fun t => !isNativeSense t) =
              (rest.take (i + 1)).countP (fun t => !isNativeSense t) + 1 := by
            simp [List.take_succ_cons, List.countP_cons, hn']
          have harith : base + 1 + (rest.take (i + 1)).countP (fun t => !isNativeSense t) =
              base + ((rest.take (i + 1)).countP (fun t => !isNativeSense t) + 1) := by
            omega
          simp only [hna, Bool.false_eq_true, if_false, hcount, ← harith]

/-- C6: for two or more senses, the HTML serialization prefixes
native-language senses with a bullet and numbers the others by the count of
non-native senses seen so far, joining with a line-break element, while the
plain serialization numbers every sense by its 1-based position, joining
with newlines. -/
theorem sense_serialization_numbering (senses : List Sense) (brief : Bool)
    (h : 2 ≤ senses.length) :
    serializeSensesHtml senses brief =
      String.intercalate "<br>" (htmlPartsSpec brief senses) ∧
    serializeSensesPlain senses =
      String.intercalate "\n" (plainPartsSpec senses) := by
  obtain ⟨a, b, rest, rfl⟩ : ∃ a b rest, senses = a :: b :: rest := by
    cases senses with
    | nil => simp at h
    | cons a tl =>
      cases tl with
      | nil => simp at h
      | cons b rest => exact ⟨a, b, rest, rfl⟩
  constructor
  · have hser : serializeSensesHtml (a :: b :: rest) brief =
        String.intercalate "<br>" (htmlSenseParts brief (a :: b :: rest) 1) := rfl
    rw [hser]
    congr 1
    rw [show (1 : Nat) = 0 + 1 from rfl, htmlSenseParts_spec brief (a :: b :: rest) 0,
      htmlPartsSpec]
    exact mapIdxFrom_congr _ _ (fun i s => by simp) _ 0
  · have hlen : 1 < (a :: b :: rest).length := by simp
    have hser : serializeSensesPlain (a :: b :: rest) =
        String.intercalate "\n"
          (mapIdxFrom
            (fun i sense =>
              (if 1 < (a :: b :: rest).length then "(" ++ toString (i + 1) ++ ") "
               else "") ++ glossesToStr sense)
            0 (a :: b :: rest)) := rfl
    rw [hser, plainPartsSpec]
    congr 1
    exact mapIdxFrom_congr _ _ (fun i s => by rw [if_pos hlen]) _ 0

/-- Witness for C6 at a concrete two-sense list (one native-language sense,
one English sense). -/
theorem sense_serialization_numbering_witness :
    2 ≤ [exampleSenseDe, exampleSenseEn].length ∧
    serializeSensesHtml [exampleSenseDe, exampleSenseEn] true =
      String.intercalate "<br>" (htmlPartsSpec true [exampleSenseDe, exampleSenseEn]) :=
  ⟨by decide,
   (sense_serialization_numbering [exampleSenseDe, exampleSenseEn] true (by decide)).1⟩

/-- Assigning the last segment's reading preserves the segment texts. -/
lemma setLastReading_texts :
    ∀ (segs : List FuriganaSegment) (r : List Char),
      (setLastReading segs r).map FuriganaSegment.text =
        segs.map FuriganaSegment.text := by
  intro segs
  induction segs with
  | nil => intro r; rfl
  | cons s rest ih =>
    intro r
    cases rest with
    | nil => rfl
    | cons s2 rest2 => simp [setLastReading, ih]

/-- Assigning the first non-kana segment's reading preserves the texts. -/
lemma setFirstKanjiRev_texts :
    ∀ (segs : List FuriganaSegment) (r : List Char),
      (setFirstKanjiRev segs r).map FuriganaSegment.text =
        segs.map FuriganaSegment.text := by
  intro segs
  induction segs with
  | nil => intro r; rfl
  | cons s rest ih =>
    intro r
    by_cases hk : isAllKana s.text = true
    · simp [setFirstKanjiRev, hk, ih]
    · have hk' : isAllKana s.text = false := by
        cases hc : isAllKana s.text
        · rfl
        · exact absurd hc hk
      simp [setFirstKanjiRev, hk']

/-- The trailing-reading assignment preserves the segment texts. -/
lemma setLastKanjiReading_texts (segs : List FuriganaSegment) (r : List Char) :
    (setLastKanjiReading segs r).map FuriganaSegment.text =
      segs.map FuriganaSegment.text := by
  simp [setLastKanjiReading, List.map_reverse, setFirstKanjiRev_texts]

/-- Concatenating the texts of the kanji/kana groups restores the
expression. -/
lemma kanaGroups_flatten : ∀ l : List Char, ((kanaGroups l).map Prod.fst).flatten = l := by
  intro l
  induction l with
  | nil => rfl
  | cons c cs ih =>
    cases hk : kanaGroups cs with
    | nil =>
      rw [hk] at ih
      simp only [List.map_nil, List.flatten_nil] at ih
      simp [kanaGroups, hk, ← ih]
    | cons gb gs =>
      obtain ⟨g, b⟩ := gb
      rw [hk] at ih
      by_cases hc : isKanaChar c = b
      · simp only [kanaGroups, hk, hc, if_true]
        simpa using congrArg (fun t => c :: t) ih
      · simp only [kanaGroups, hk, hc, if_false]
        simpa using congrArg (fun t => c :: t) ih

/-- The first group produced by `kanaGroups` carries the kana-ness flag of
the first character. -/
lemma kanaGroups_head_flag (c : Char) (cs : List Char) :
    ∃ g gs, kanaGroups (c :: cs) = (g, isKanaChar c) :: gs := by
  cases hk : kanaGroups cs with
  | nil => exact ⟨[c], [], by simp [kanaGroups, hk]⟩
  | cons gb gs =>
    obtain ⟨g, b⟩ := gb
    by_cases hc : isKanaChar c = b
    · refine ⟨c :: g, gs, ?_⟩
      simp [kanaGroups, hk, hc]
    · refine ⟨[c], (g, b) :: gs, ?_⟩
      simp [kanaGroups, hk, hc]

/-- Through the main walk of `distributeFurigana`, the concatenated segment
texts grow by exactly the concatenated group texts, provided the segment
list is non-empty on entry (so the unmatched-prefix push never fires). -/
lemma distLoop_texts (reading rn : List Char) :
    ∀ (gs : List (List Char × Bool)) (rp : Nat)
      (segs segs' : List FuriganaSegment) (rp' : Nat),
      segs ≠ [] →
      distLoop reading rn gs rp segs = some (segs', rp') →
      (segs'.map FuriganaSegment.text).flatten =
        (segs.map FuriganaSegment.text).flatten ++ (gs.map Prod.fst).flatten := by
  intro gs
  induction gs with
  | nil =>
    intro rp segs segs' rp' hne h
    simp only [distLoop, Option.some.injEq, Prod.mk.injEq] at h
    rw [← h.1]
    simp
  | cons gb rest ih =>
    obtain ⟨g, gIsKana⟩ := gb
    intro rp segs segs' rp' hne h
    cases gIsKana with
    | false =>
      have hstep : distLoop reading rn ((g, false) :: rest) rp segs =
          distLoop reading rn rest rp (segs ++ [⟨g, []⟩]) := by
        simp [distLoop]
      rw [hstep] at h
      have hrec := ih rp (segs ++ [⟨g, []⟩]) segs' rp' (by simp) h
      simp only [List.map_append, List.flatten_append, List.map_cons,
        List.flatten_cons, List.map_nil, List.flatten_nil, List.append_nil,
        List.append_assoc] at hrec ⊢
      exact hrec
    | true =>
      cases hidx : indexOfFrom rn (katakanaToHiragana g) rp with
      | none =>
        have hnone : distLoop reading rn ((g, true) :: rest) rp segs = none := by
          simp [distLoop, hidx]
        rw [hnone] at h
        exact absurd h (by simp)
      | some idx =>
        have hpos : 0 < segs.length := List.length_pos.mpr hne
        have hstep : distLoop reading rn ((g, true) :: rest) rp segs =
            distLoop reading rn rest (idx + (katakanaToHiragana g).length)
              ((if rp < idx ∧ 0 < segs.length then
                  setLastReading segs (listSlice reading rp idx)
                else if rp < idx then segs ++ [⟨listSlice reading rp idx, []⟩]
                else segs) ++ [⟨g, []⟩]) := by
          simp [distLoop, hidx]
        rw [hstep] at h
        by_cases hlt : rp < idx
        · rw [if_pos ⟨hlt, hpos⟩] at h
          have hrec := ih _ _ segs' rp' (by simp) h
          simp only [List.map_append, List.flatten_append, List.map_cons,
            List.flatten_cons, List.map_nil, List.flatten_nil, List.append_nil,
            List.append_assoc, setLastReading_texts] at hrec ⊢
          exact hrec
        · rw [if_neg (fun hand => hlt hand.1), if_neg hlt] at h
          have hrec := ih _ _ segs' rp' (by simp) h
          simp only [List.map_append, List.flatten_append, List.map_cons,
            List.flatten_cons, List.map_nil, List.flatten_nil, List.append_nil,
            List.append_assoc] at hrec ⊢
          exact hrec

/-- Counterexample for C1: for the expression の木 with reading あのき, the
walk matches the leading kana run の at position 1 of the reading and pushes
the unmatched reading prefix あ as an extra segment, so concatenating the
segment texts yields あの木, not the expression. -/
theorem furigana_concat_counterexample :
    ((distributeFurigana ['の', '木'] ['あ', 'の', 'き']).map
      FuriganaSegment.text).flatten ≠ ['の', '木'] := by decide

/-- C1 (amended): concatenating the segment texts reproduces the expression
exactly whenever the expression is entirely kana or does not begin with a
kana character.  The restriction is necessary: see the counterexample,
where an expression beginning with a kana run makes the distributor emit an
extra leading segment of unmatched reading text. -/
theorem furigana_concat_amended (expression reading : List Char)
    (h : (isAllKana expression || headNotKana expression) = true) :
    ((distributeFurigana expression reading).map FuriganaSegment.text).flatten =
      expression := by
  by_cases h1 : reading = expression ∨ reading = []
  · simp [distributeFurigana, h1]
  by_cases h2 : isAllKana expression = true
  · simp [distributeFurigana, h1, h2]
  have h2' : isAllKana expression = false := by
    cases hc : isAllKana expression
    · rfl
    · exact absurd hc h2
  by_cases h3 : (kanaGroups expression).length = 1
  · simp [distributeFurigana, h1, h2', h3]
  have hh : headNotKana expression = true := by
    simpa [h2'] using h
  cases expression with
  | nil =>
    have hread : reading ≠ [] := fun he => h1 (Or.inr he)
    have hlen : 0 < reading.length := List.length_pos.mpr hread
    simp [distributeFurigana, h1, h2', kanaGroups, distLoop, hlen,
      setLastKanjiReading, setFirstKanjiRev]
  | cons c cs =>
    have hflag : isKanaChar c = false := by simpa [headNotKana] using hh
    obtain ⟨g, gs, hkg⟩ := kanaGroups_head_flag c cs
    rw [hflag] at hkg
    rw [hkg] at h3
    simp only [distributeFurigana, h1, h2', Bool.false_eq_true, if_false,
      hkg, h3]
    have hstep : distLoop reading (katakanaToHiragana reading)
        ((g, false) :: gs) 0 [] =
        distLoop reading (katakanaToHiragana reading) gs 0 [⟨g, []⟩] := by
      simp [distLoop]
    rw [hstep]
    cases hres : distLoop reading (katakanaToHiragana reading) gs 0 [⟨g, []⟩] with
    | none => simp
    | some pr =>
      obtain ⟨segs', rp'⟩ := pr
      have htext := distLoop_texts reading (katakanaToHiragana reading)
        gs 0 [⟨g, []⟩] segs' rp' (by simp) hres
      have hflat : (((g, false) :: gs).map Prod.fst).flatten = c :: cs := by
        rw [← hkg]
        exact kanaGroups_flatten (c :: cs)
      have hconcat : (segs'.map FuriganaSegment.text).flatten = c :: cs := by
        rw [htext]
        simp only [List.map_cons, List.flatten_cons, List.map_nil,
          List.flatten_nil, List.append_nil] at hflat ⊢
        exact hflat
      by_cases hrp : rp' < reading.length
      · simp only [hrp, if_true]
        rw [setLastKanjiReading_texts]
        exact hconcat
      · simp only [hrp, if_false]
        exact hconcat

/-- Witness for C1 (amended) at the expression 食べる with reading たべる. -/
theorem furigana_concat_amended_witness :
    (isAllKana ['食', 'べ', 'る'] || headNotKana ['食', 'べ', 'る']) = true ∧
    ((distributeFurigana ['食', 'べ', 'る'] ['た', 'べ', 'る']).map
      FuriganaSegment.text).flatten = ['食', 'べ', 'る'] :=
  ⟨by decide, furigana_concat_amended ['食', 'べ', 'る'] ['た', 'べ', 'る'] (by decide)⟩

/-- C4: when the walk fails to locate some kana run in the remaining
normalized reading, `distributeFurigana` returns exactly one segment
carrying the whole expression and the whole original (non-normalized)
reading. -/
theorem furigana_fallback_on_unmatched_kana (expression reading : List Char)
    (h1 : ¬(reading = expression ∨ reading = []))
    (h2 : isAllKana expression = false)
    (h3 : (kanaGroups expression).length ≠ 1)
    (h4 : distLoop reading (katakanaToHiragana reading)
        (kanaGroups expression) 0 [] = none) :
    distributeFurigana expression reading = [⟨expression, reading⟩] := by
  simp [distributeFurigana, h1, h2, h3, h4]

/-- Witness for C4 at the expression 木の with reading きは, whose kana run
の never occurs in the reading. -/
theorem furigana_fallback_witness :
    (¬((['き', 'は'] : List Char) = ['木', 'の'] ∨ (['き', 'は'] : List Char) = []) ∧
      isAllKana ['木', 'の'] = false ∧
      (kanaGroups ['木', 'の']).length ≠ 1 ∧
      distLoop ['き', 'は'] (katakanaToHiragana ['き', 'は'])
        (kanaGroups ['木', 'の']) 0 [] = none) ∧
    distributeFurigana ['木', 'の'] ['き', 'は'] = [⟨['木', 'の'], ['き', 'は']⟩] :=
  ⟨⟨by decide, by decide, by decide, by decide⟩,
   furigana_fallback_on_unmatched_kana ['木', 'の'] ['き', 'は']
     (by decide) (by decide) (by decide) (by decide)⟩

end TenTen
